import Mathlib

/-!
# Webhook handlers and migration typings of `building-rest-apis-on-8base`

A shallow embedding of

* `server/src/webhooks/utils/index.js` (`responseBuilder`),
* `server/src/webhooks/users/{create,edit,delete,get,list}/handler.js`,
* `server/migrations/typing.v1.d.ts` (the argument types of the migration API),

followed by the properties proved about them.

JavaScript values are embedded as JSON data plus `undefined`; numbers are
integers.  A promise is embedded by its settlement: `Except.ok` for a resolved
value, `Except.error` for a rejection (or, for synchronous code, a thrown value).
-/

namespace Webhooks

/-! ## JavaScript values -/

/-- The values that flow through the handlers: JSON data, `undefined`, and
what `Object.assign` makes of a target that is not a plain object.  A plain
object is the list of its own enumerable properties in the order JavaScript
enumerates them (insertion order, for names that are not integers).
`boxed base props` is an array `base` (the same array), or the wrapper object of
a boolean, number or string `base`, on which the named properties `props` have
been set.  Numbers are integers (of a magnitude JavaScript prints in decimal). -/
inductive JsVal where
  | undefined
  | null
  | bool (b : Bool)
  | num (n : Int)
  | str (s : String)
  | arr (xs : List JsVal)
  | obj (fs : List (String × JsVal))
  | boxed (base : JsVal) (props : List (String × JsVal))

/-- The own properties of an object. -/
abbrev Fields := List (String × JsVal)

/-- The value thrown when a property is read from `null` or `undefined`, or when
`null` or `undefined` is converted to an object (the engine's message text is
not part of the embedding). -/
def typeError : JsVal := .obj [("name", .str "TypeError")]

/-- Property read `v.k` (also one step of a destructuring pattern `{ k } = v`).
Reading from `null` or `undefined` throws; an object yields its own property or
`undefined`; a boxed value yields the property set on it or else what its base
yields.  Booleans, numbers, strings and arrays yield `undefined`: the property
names read by this program (`data`, `pathParameters`, `id`, `errors`,
`response`, `user`, `userCreate`, ...) are not members of their prototypes. -/
def getProp (v : JsVal) (k : String) : Except JsVal JsVal :=
  match v with
  | .undefined => .error typeError
  | .null => .error typeError
  | .obj fs => .ok ((fs.lookup k).getD .undefined)
  | .boxed base props =>
    match props.lookup k with
    | some x => .ok x
    | none => getProp base k
  | _ => .ok .undefined

/-- ToBoolean: the values for which `!v` is `false`. -/
def truthy : JsVal → Bool
  | .undefined => false
  | .null => false
  | .bool b => b
  | .num n => n != 0
  | .str s => s != ""
  | .arr _ => true
  | .obj _ => true
  | .boxed _ _ => true

/-- Assignment `o[k] = v` on the property list of an object: an existing
property keeps its position, a new one is appended (the place of a name that is
not an integer). -/
def setField (k : String) (v : JsVal) : Fields → Fields
  | [] => [(k, v)]
  | (k', v') :: fs => if k' = k then (k, v) :: fs else (k', v') :: setField k v fs

/-- The properties `src` of a source object set, in order, on the properties `fs`. -/
def assignFields (fs src : Fields) : Fields :=
  src.foldl (fun acc kv => setField kv.1 kv.2 acc) fs

/-- `Object.assign(target, source)` for a source object with properties `src`.
A `null` or `undefined` target throws a `TypeError`; an object target receives
every source property in order and is returned.  An array target is returned
with the properties set on it, and a boolean, number or string target is
converted to its wrapper object, which receives them: both are `boxed` values.
(The source names are taken not to be array indices or `length`, which an array
or a string wrapper treats specially; the handlers assign `id` only.) -/
def objectAssign (target : JsVal) (src : Fields) : Except JsVal JsVal :=
  match target with
  | .undefined => .error typeError
  | .null => .error typeError
  | .obj fs => .ok (.obj (assignFields fs src))
  | .boxed base props => .ok (.boxed base (assignFields props src))
  | v => .ok (.boxed v (assignFields [] src))

/-! ## `JSON.stringify` -/

/-- The hexadecimal digit of a number below sixteen. -/
def hexDigit (n : Nat) : Char :=
  if n < 10 then Char.ofNat (48 + n) else Char.ofNat (87 + n)

/-- QuoteJSONString on one character: the quotation mark, the reverse solidus
and the control characters are escaped. -/
def quoteChar (c : Char) : String :=
  let bs := String.singleton (Char.ofNat 92)
  if c.toNat = 34 then bs ++ String.singleton (Char.ofNat 34)
  else if c.toNat = 92 then bs ++ bs
  else if c.toNat = 8 then bs ++ "b"
  else if c.toNat = 12 then bs ++ "f"
  else if c.toNat = 10 then bs ++ "n"
  else if c.toNat = 13 then bs ++ "r"
  else if c.toNat = 9 then bs ++ "t"
  else if c.toNat < 32 then
    bs ++ "u00" ++ String.singleton (hexDigit (c.toNat / 16)) ++ String.singleton (hexDigit (c.toNat % 16))
  else String.singleton c

/-- QuoteJSONString. -/
def quote (s : String) : String :=
  String.singleton (Char.ofNat 34) ++ String.join (s.data.map quoteChar) ++ String.singleton (Char.ofNat 34)

mutual
/-- SerializeJSONProperty: `none` is the result `undefined`.  A wrapper object
is serialized as the value it wraps and an array with named properties as the
array. -/
def serializeProperty : JsVal → Option String
  | .boxed base _ => serializeProperty base
  | .undefined => none
  | .null => some "null"
  | .bool b => some (if b then "true" else "false")
  | .num n => some (toString n)
  | .str s => some (quote s)
  | .arr xs => some ("[" ++ ",".intercalate (serializeArray xs) ++ "]")
  | .obj fs => some ("\x7b" ++ ",".intercalate (serializeObject fs) ++ "\x7d")
/-- SerializeJSONArray: an element that serializes to `undefined` is written `null`. -/
def serializeArray : List JsVal → List String
  | [] => []
  | x :: xs => (serializeProperty x).getD "null" :: serializeArray xs
/-- SerializeJSONObject: a property that serializes to `undefined` is left out. -/
def serializeObject : List (String × JsVal) → List String
  | [] => []
  | (k, v) :: fs =>
    match serializeProperty v with
    | none => serializeObject fs
    | some s => (quote k ++ ":" ++ s) :: serializeObject fs
end

/-- The expression `JSON.stringify(v)` as a value: a string or `undefined`. -/
def JSON.stringify (v : JsVal) : JsVal :=
  match serializeProperty v with
  | none => .undefined
  | some s => .str s

/-! ## Runs -/

/-- A GraphQL document built with the `gql` tag: operation kind, declared
variables, root field and the selection below it. -/
structure Document where
  kind : String
  variableDefs : List (String × String)
  rootField : String
  selection : List String

/-- The observable behaviour of one call: how it completed (`ok v`: returned or
resolved with `v`; `error e`: threw or rejected with `e`), the requests passed
to `ctx.api.gqlRequest` and the values written with `console.log`, in order. -/
structure Run where
  completion : Except JsVal JsVal
  requests : List (Document × JsVal)
  console : List JsVal

/-- The handler context: `ctx.api.gqlRequest(query, variables)`, by the
settlement of the promise it returns. -/
structure Context where
  gqlRequest : Document → JsVal → Except JsVal JsVal

/-- A run that throws without having done anything else. -/
def Run.throw (e : JsVal) : Run := ⟨.error e, [], []⟩

/-- The run `r` preceded by the requests `reqs`. -/
def Run.after (reqs : List (Document × JsVal)) (r : Run) : Run :=
  ⟨r.completion, reqs ++ r.requests, r.console⟩

/-! ## `utils/index.js` -/

/-- `responseBuilder(code = 200, data = {}, headers = {})`.  `now` is the value
of `new Date().toJSON()`; `code` is `none` when the argument is omitted, and an
`undefined` `data` or `headers` takes its default. -/
def responseBuilder (now : String) (code : Option Int) (data headers : JsVal) : Run :=
  let code := code.getD 200
  let data := match data with
    | .undefined => JsVal.obj []
    | d => d
  let headers := match headers with
    | .undefined => JsVal.obj []
    | h => h
  if code ≥ 400 then
    match getProp data "errors" with
    | .error e => Run.throw e
    | .ok errors =>
      let err := JsVal.obj
        [("headers", headers), ("statusCude", .num code), ("errors", errors), ("timestamp", .str now)]
      ⟨.ok err, [], [err]⟩
  else
    ⟨.ok (.obj [("headers", headers), ("statusCode", .num code), ("body", JSON.stringify data)]), [], []⟩

/-! ## `users/*/handler.js` -/

/-- The clause `catch ({ response: { errors } }) { return responseBuilder(400, { errors }) }`
shared by the create, edit and delete handlers, entered with the caught value `e`. -/
def catchClause (now : String) (e : JsVal) : Run :=
  match getProp e "response" with
  | .error t => Run.throw t
  | .ok response =>
    match getProp response "errors" with
    | .error t => Run.throw t
    | .ok errors => responseBuilder now (some 400) (.obj [("errors", errors)]) .undefined

/-- A `try` block followed by `catchClause`: a throwing body hands its value to
the clause, and what the body did before throwing stays done. -/
def tryCatch (now : String) (body : Run) : Run :=
  match body.completion with
  | .ok _ => body
  | .error e =>
    let c := catchClause now e
    ⟨c.completion, body.requests ++ c.requests, body.console ++ c.console⟩

/-- The statements `const { field } = await ctx.api.gqlRequest(doc, vars)` and
`return responseBuilder(200, { result: field })` of a `try` block. -/
def requestThenRespond (now : String) (ctx : Context) (doc : Document) (vars : JsVal)
    (field : String) : Run :=
  match ctx.gqlRequest doc vars with
  | .error e => ⟨.error e, [(doc, vars)], []⟩
  | .ok res =>
    match getProp res field with
    | .error t => ⟨.error t, [(doc, vars)], []⟩
    | .ok r => Run.after [(doc, vars)] (responseBuilder now (some 200) (.obj [("result", r)]) .undefined)

namespace users

/-- The document `MUTATION` of `users/create/handler.js`. -/
def create.MUTATION : Document :=
  ⟨"mutation", [("data", "UserCreateInput!")], "userCreate",
    ["id", "email", "firstName", "lastName", "updatedAt", "createdAt"]⟩

/-- The export of `users/create/handler.js`. -/
def create.handler (now : String) (event : JsVal) (ctx : Context) : Run :=
  tryCatch now
    (match getProp event "data" with
     | .error t => Run.throw t
     | .ok data => requestThenRespond now ctx create.MUTATION (.obj [("data", data)]) "userCreate")

/-- The document `MUTATION` of `users/delete/handler.js`. -/
def delete.MUTATION : Document :=
  ⟨"mutation", [("id", "ID!")], "userDelete", ["success"]⟩

/-- The export of `users/delete/handler.js`. -/
def delete.handler (now : String) (event : JsVal) (ctx : Context) : Run :=
  match getProp event "pathParameters" with
  | .error t => Run.throw t
  | .ok pathParameters =>
    match getProp pathParameters "id" with
    | .error t => Run.throw t
    | .ok id =>
      tryCatch now (requestThenRespond now ctx delete.MUTATION (.obj [("id", id)]) "userDelete")

/-- The document `MUTATION` of `users/edit/handler.js`. -/
def edit.MUTATION : Document :=
  ⟨"mutation", [("data", "UserUpdateInput!")], "userUpdate",
    ["id", "email", "firstName", "lastName", "updatedAt", "createdAt"]⟩

/-- The export of `users/edit/handler.js`. -/
def edit.handler (now : String) (event : JsVal) (ctx : Context) : Run :=
  match getProp event "pathParameters" with
  | .error t => Run.throw t
  | .ok pathParameters =>
    match getProp pathParameters "id" with
    | .error t => Run.throw t
    | .ok id =>
      match getProp event "data" with
      | .error t => Run.throw t
      | .ok eventData =>
        match objectAssign eventData [("id", id)] with
        | .error t => Run.throw t
        | .ok data =>
          tryCatch now
            (requestThenRespond now ctx edit.MUTATION (.obj [("data", data)]) "userUpdate")

/-- The document `QUERY` of `users/get/handler.js`. -/
def get.QUERY : Document :=
  ⟨"query", [("id", "ID!")], "user",
    ["id", "firstName", "lastName", "email", "createdAt", "updatedAt",
      "avatar.downloadUrl", "roles.items.name"]⟩

/-- The export of `users/get/handler.js`. -/
def get.handler (now : String) (event : JsVal) (ctx : Context) : Run :=
  match getProp event "pathParameters" with
  | .error t => Run.throw t
  | .ok pathParameters =>
    match getProp pathParameters "id" with
    | .error t => Run.throw t
    | .ok id =>
      let vars := JsVal.obj [("id", id)]
      match ctx.gqlRequest get.QUERY vars with
      | .error e => ⟨.error e, [(get.QUERY, vars)], []⟩
      | .ok res =>
        match getProp res "user" with
        | .error t => ⟨.error t, [(get.QUERY, vars)], []⟩
        | .ok user =>
          if !truthy user then
            Run.after [(get.QUERY, vars)]
              (responseBuilder now (some 404)
                (.obj [("message", .str "No record found."), ("errors", .arr [])]) .undefined)
          else
            Run.after [(get.QUERY, vars)]
              (responseBuilder now (some 200) (.obj [("result", user)]) .undefined)

/-- The document `QUERY` of `users/list/handler.js`. -/
def list.QUERY : Document :=
  ⟨"query", [], "usersList",
    ["count", "items.id", "items.firstName", "items.lastName", "items.email",
      "items.createdAt", "items.updatedAt"]⟩

/-- The export of `users/list/handler.js`; the event is not read and the request
is made without variables. -/
def list.handler (now : String) (_event : JsVal) (ctx : Context) : Run :=
  match ctx.gqlRequest list.QUERY .undefined with
  | .error e => ⟨.error e, [(list.QUERY, .undefined)], []⟩
  | .ok res =>
    match getProp res "usersList" with
    | .error t => ⟨.error t, [(list.QUERY, .undefined)], []⟩
    | .ok usersList =>
      Run.after [(list.QUERY, .undefined)]
        (responseBuilder now (some 200) (.obj [("result", usersList)]) .undefined)

end users

/-! ## `migrations/typing.v1.d.ts`: types and the values they accept -/

/-- The type expressions the declaration file is written in.  A property of an
object type is its name, whether it is optional (`name?:`), and its type. -/
inductive Ty where
  | never
  | string
  | number
  | boolean
  | null
  | lit (s : String)
  | array (elem : Ty)
  | object (props : List (String × Bool × Ty))
  | union (a b : Ty)
  | inter (a b : Ty)
  | undefined
  | index (numeric : Bool) (value : Ty)

/-- The property signatures of an object type. -/
abbrev Props := List (String × Bool × Ty)

/-- The named own properties of a value: those of a plain object, and those set
on a boxed value. -/
def ownProps : JsVal → Option Fields
  | .obj fs => some fs
  | .boxed _ props => some props
  | _ => none

/-- Whether a property name is a numeric name, one a number index signature
`[x: number]` applies to.  The decimal integers are recognised; the other
numeric names (fractions, exponents, `Infinity`, `NaN`) are not. -/
def isNumericName (k : String) : Bool :=
  let isDigit := fun (c : Char) => 48 ≤ c.toNat && c.toNat ≤ 57
  let isNatural := fun (ds : List Char) =>
    match ds with
    | [] => false
    | [c] => isDigit c
    | c :: rest => isDigit c && c.toNat != 48 && rest.all isDigit
  match k.data with
  | [] => false
  | c :: ds =>
    if c.toNat = 45 then isNatural ds && !(ds.map Char.toNat == [48])
    else isNatural (c :: ds)

mutual
/-- Structural assignability of a JSON value to a type: a value is accepted by
an object type when every required property is present with an accepted value
and every optional property is absent, `undefined` or accepted; properties the
type does not declare are not looked at.  `null` is accepted by the type
`null` only and `undefined` by the type `undefined` only (strict null checks).
`index false t` is the index signature `{ [x: string]: t }`, which every
property must be accepted by, and `index true t` is `{ [x: number]: t }`, which
every property with a numeric name must be accepted by.  Only objects are
checked against object types (each object type an API operation takes has a
required property, which arrays and primitive values lack): plain objects, and
boxed values by the properties set on them; a boxed array is still an array and
a wrapper object is no primitive value. -/
def conforms : Ty → JsVal → Bool
  | .never, _ => false
  | .undefined, v => match v with
    | .undefined => true
    | _ => false
  | .index numeric t, v => match ownProps v with
    | some fs => fs.all fun kv => (numeric && !isNumericName kv.1) || conforms t kv.2
    | none => false
  | .string, v => match v with
    | .str _ => true
    | _ => false
  | .number, v => match v with
    | .num _ => true
    | _ => false
  | .boolean, v => match v with
    | .bool _ => true
    | _ => false
  | .null, v => match v with
    | .null => true
    | _ => false
  | .lit s, v => match v with
    | .str t => s == t
    | _ => false
  | .array t, v => match v with
    | .arr xs => xs.all (conforms t)
    | .boxed (.arr xs) _ => xs.all (conforms t)
    | _ => false
  | .object ps, v => match ownProps v with
    | some fs => conformsProps ps fs
    | none => false
  | .union a b, v => conforms a v || conforms b v
  | .inter a b, v => conforms a v && conforms b v
/-- The property signatures `ps` checked against the properties `fs` of a value. -/
def conformsProps : List (String × Bool × Ty) → Fields → Bool
  | [], _ => true
  | (k, optional, t) :: ps, fs =>
    (match fs.lookup k with
      | none => optional
      | some .undefined => optional
      | some v => conforms t v) && conformsProps ps fs
end

/-- The properties of an object type (none for any other type). -/
def Ty.props : Ty → Props
  | .object ps => ps
  | _ => []

/-- The union of a list of types. -/
def unionAll : List Ty → Ty
  | [] => .never
  | [t] => t
  | t :: ts => .union t (unionAll ts)

/-- A union of string literal types, `"A" | "B" | ...`. -/
def oneOf (ls : List String) : Ty := unionAll (ls.map .lit)

/-- An interface `extends base` with the further members `own`. -/
def extend (base : Ty) (own : Props) : Ty := .object (base.props ++ own)

/-- The utility type `Partial<T>` on property signatures. -/
def PartialProps (ps : Props) : Props := ps.map fun p => (p.1, true, p.2.2)

/-- The utility type `Required<T>` on property signatures. -/
def RequiredProps (ps : Props) : Props := ps.map fun p => (p.1, false, p.2.2)

/-- A union of property-key types: string literals, `string` and `number`
(a literal is listed only when `string` does not absorb it). -/
structure KeyUnion where
  literals : List String
  string : Bool
  number : Bool

/-- The union of the string literals `ks`. -/
def literalKeys (ks : List String) : KeyUnion := ⟨ks, false, false⟩

/-- The key type `string`. -/
def stringKeys : KeyUnion := ⟨[], true, false⟩

/-- The members of an object type: its property signatures, its string index
signature and its number index signature. -/
structure Shape where
  props : Props
  stringIndex : Option Ty
  numberIndex : Option Ty

/-- The object type with the members of a shape. -/
def Shape.toTy (T : Shape) : Ty :=
  let named := Ty.object T.props
  let withString := match T.stringIndex with
    | none => named
    | some t => .inter named (.index false t)
  match T.numberIndex with
  | none => withString
  | some t => .inter withString (.index true t)

/-- The operator `keyof T`: the property names, or `string | number` when `T`
has a string index signature. -/
def keyof (T : Shape) : KeyUnion :=
  match T.stringIndex with
  | some _ => ⟨[], true, true⟩
  | none => ⟨T.props.map fun p => p.1, false, T.numberIndex.isSome⟩

/-- The utility type `Exclude<Keys, Omitted>`: the members of `Keys` that are
not assignable to `Omitted`. -/
def Exclude (keys omitted : KeyUnion) : KeyUnion :=
  ⟨keys.literals.filter fun k => !(omitted.string || omitted.literals.contains k),
    keys.string && !omitted.string, keys.number && !omitted.number⟩

/-- The utility type `Pick<T, Keys>`, `{ [P in Keys]: T[P] }`, for keys of `T`:
a literal key keeps its property, `string` gives the string index signature and
`number` the number index signature (of type `T[number]`, which is the string
index type when `T` has no number index signature). -/
def Pick (T : Shape) (keys : KeyUnion) : Shape :=
  ⟨T.props.filter fun p => keys.literals.contains p.1,
    if keys.string then T.stringIndex else none,
    if keys.number then
      (match T.numberIndex with
        | some t => some t
        | none => T.stringIndex)
    else none⟩

/-- The utility type `Required<T>`. -/
def RequiredOf (T : Shape) : Shape := ⟨RequiredProps T.props, T.stringIndex, T.numberIndex⟩

/-- The utility type `Partial<T>`: properties become optional and an index
signature admits `undefined`. -/
def PartialOf (T : Shape) : Shape :=
  ⟨PartialProps T.props, T.stringIndex.map fun t => .union t .undefined,
    T.numberIndex.map fun t => .union t .undefined⟩

/-- The members of a union of key types, each as a union of its own. -/
def KeyUnion.members (keys : KeyUnion) : List KeyUnion :=
  keys.literals.map (fun k => ⟨[k], false, false⟩) ++
    ((if keys.string then [⟨[], true, false⟩] else []) ++
      (if keys.number then [⟨[], false, true⟩] else []))

mutual
/-- The mapped type `RecursivePartial<T>`: every property becomes optional, and
the array- and object-typed properties are mapped in turn.  The type of a
property that is already optional includes `undefined`, so it extends neither an
array type nor `object` and is kept as declared. -/
def RecursivePartial : Ty → Ty
  | .object ps => .object (RecursivePartialProps ps)
  | .array t => .array (RecursivePartial t)
  | .union a b => .union (RecursivePartial a) (RecursivePartial b)
  | .inter a b => .inter (RecursivePartial a) (RecursivePartial b)
  | t => t
/-- The properties of `RecursivePartial<T>`. -/
def RecursivePartialProps : List (String × Bool × Ty) → List (String × Bool × Ty)
  | [] => []
  | (k, optional, t) :: ps =>
    (k, true, if optional then t else RecursivePartial t) :: RecursivePartialProps ps
end

def ObjectName : Ty := .string
def ApplicationKey : Ty := ObjectName
def TableKey : Ty := .object [("name", false, ObjectName), ("application", true, ObjectName)]
def FieldKey : Ty := .object [("name", false, ObjectName), ("table", false, TableKey)]
def IndexKey : Ty := .object [("name", false, ObjectName), ("table", false, TableKey)]

namespace SchemaArguments

def DeleteById : Ty := .object [("id", false, .string)]

def ApplicationData : Ty := .object
  [("name", false, .string), ("displayName", true, .string), ("description", true, .string),
   ("status", true, oneOf ["ACTIVE", "INACTIVE"])]

def ApplicationCreate : Ty := extend ApplicationData [("id", false, .string)]

def ApplicationUpdateById : Ty :=
  extend (.object (PartialProps ApplicationData.props)) [("id", false, .string)]

def ApplicationUpdate : Ty :=
  extend (.object (PartialProps ApplicationData.props)) [("application", false, ApplicationKey)]

def ApplicationDelete : Ty := .object [("application", false, ApplicationKey)]

def TableData : Ty := .object
  [("name", false, .string), ("displayName", true, .string), ("description", true, .string)]

def TableCreate : Ty := extend TableData
  [("id", false, .string), ("applicationId", true, .string), ("application", true, ObjectName)]

def TableDelete : Ty := .object
  [("table", false, .object [("name", false, ObjectName), ("application", false, ObjectName)])]

def TableUpdateById : Ty :=
  extend (.object (PartialProps TableData.props)) [("id", false, .string)]

def TableUpdate : Ty :=
  extend (.object (PartialProps TableData.props)) [("table", false, TableKey)]

def FieldDataBase : Ty := .object
  [("name", false, .string), ("displayName", true, .string), ("description", true, .string),
   ("defaultValue", true, .union .string .null),
   ("isRequired", false, .boolean), ("isList", false, .boolean), ("isUnique", true, .boolean),
   ("computedMode", true, oneOf ["VIRTUAL", "STORED"]), ("expression", true, .string),
   ("references", true, .array .string)]

def NumberFieldTypeAttributes : Ty := .object
  [("format", false, oneOf ["NUMBER"]), ("precision", true, .number), ("currency", true, .string),
   ("minValue", true, .number), ("maxValue", true, .number), ("isBigInt", true, .boolean),
   ("autoIncrement", true, .boolean)]

def TextFieldTypeAttributes : Ty := .object
  [("format", false, oneOf ["UNFORMATTED", "NAME", "EMAIL", "EIN"]), ("fieldSize", true, .number),
   ("regex", true, .string)]

def DateFieldTypeAttributes : Ty := .object [("format", false, oneOf ["DATE", "DATETIME"])]

def SwitchFieldTypeAttributes : Ty := .object
  [("format", false,
      oneOf ["ON_OFF", "YES_NO", "TRUE_FALSE", "ACTIVE_INACTIVE", "HIGH_LOW", "CUSTOM"]),
   ("listOptions", true, .array .string)]

def FileFieldTypeAttributes : Ty := .object
  [("format", false, oneOf ["FILE", "IMAGE"]), ("showTitle", true, .boolean),
   ("showUrl", true, .boolean), ("maxSize", true, .number),
   ("typeRestrictions", true, .array .string), ("expiration", true, .number)]

def NumberFieldData : Ty := extend FieldDataBase
  [("fieldType", false, .lit "NUMBER"), ("fieldTypeAttributes", true, NumberFieldTypeAttributes)]

def SwitchFieldData : Ty := extend FieldDataBase
  [("fieldType", false, .lit "SWITCH"), ("fieldTypeAttributes", false, SwitchFieldTypeAttributes)]

def TextFieldData : Ty := extend FieldDataBase
  [("fieldType", false, .lit "TEXT"), ("fieldTypeAttributes", false, TextFieldTypeAttributes)]

def DateFieldData : Ty := extend FieldDataBase
  [("fieldType", false, .lit "DATE"), ("fieldTypeAttributes", false, DateFieldTypeAttributes)]

/-- The declared type of `innerFields` reads
`NumberFieldData | SwitchFieldData | TextFieldData | DateFieldData[]`: the array
suffix binds to the last member only. -/
def SmartFieldTypeAttributes : Ty := .object
  [("format", false, oneOf ["ADDRESS", "PHONE"]),
   ("innerFields", true,
      unionAll [NumberFieldData, SwitchFieldData, TextFieldData, .array DateFieldData])]

def SmartFieldData : Ty := extend FieldDataBase
  [("fieldType", false, .lit "SMART"), ("fieldTypeAttributes", false, SmartFieldTypeAttributes)]

def JsonFieldData : Ty := extend FieldDataBase [("fieldType", false, .lit "JSON")]

def ImplicitRelationData : Ty := .object
  [("refTableId", false, .string), ("refFieldName", true, .string),
   ("refFieldDisplayName", true, .string), ("refFieldIsList", false, .boolean),
   ("refFieldIsRequired", false, .boolean), ("id", false, .string)]

def FileFieldData : Ty := extend FieldDataBase
  [("fieldType", false, .lit "FILE"), ("fieldTypeAttributes", false, FileFieldTypeAttributes),
   ("relation", false, ImplicitRelationData)]

def RelationFieldData : Ty := extend FieldDataBase
  [("fieldType", false, .lit "RELATION"), ("relation", false, ImplicitRelationData)]

def FieldData : Ty := unionAll
  [RelationFieldData, FileFieldData, JsonFieldData, SmartFieldData, DateFieldData, TextFieldData,
   NumberFieldData, SwitchFieldData]

def FieldDataPartial : Ty := unionAll
  [ RecursivePartial RelationFieldData, RecursivePartial FileFieldData,
    RecursivePartial JsonFieldData, RecursivePartial SmartFieldData,
    RecursivePartial DateFieldData, RecursivePartial TextFieldData,
    RecursivePartial NumberFieldData, RecursivePartial SwitchFieldData]

def FieldCreateById : Ty :=
  .inter FieldData (.object [("id", false, .string), ("tableId", false, .string)])

def FieldCreate : Ty :=
  .inter FieldData (.object [("id", false, .string), ("table", false, TableKey)])

def FieldDelete : Ty := .object [("field", false, FieldKey)]

def FieldUpdateById : Ty := .inter FieldDataPartial (.object [("id", false, .string)])

def FieldUpdate : Ty := .inter FieldDataPartial (.object [("field", false, FieldKey)])

def ITableIndexColumnData : Ty := .object
  [("name", false, .string), ("direction", true, oneOf ["DESC", "ASC"])]

def MigrationSchemaIndexData : Ty := .object
  [("name", false, .string), ("type", false, oneOf ["INDEX", "UNIQUE"]),
   ("columns", false, .array ITableIndexColumnData), ("force", true, .boolean)]

def MigrationSchemaIndexCreateById : Ty := extend MigrationSchemaIndexData
  [("id", false, .string), ("tableId", false, .string)]

def MigrationSchemaIndexCreate : Ty := extend MigrationSchemaIndexData []

def MigrationSchemaIndexDelete : Ty := .object [("index", false, IndexKey)]

def MigrationSchemaIndexUpdate : Ty :=
  extend (.object (PartialProps MigrationSchemaIndexData.props)) [("index", false, IndexKey)]

def MigrationSchemaIndexUpdateById : Ty :=
  extend (.object (PartialProps MigrationSchemaIndexData.props)) [("id", false, .string)]

end SchemaArguments

namespace DataArguments.MigrationDataInputTypes

/-- The type `RequireAtLeastOne<T, Keys>`,
`Pick<T, Exclude<keyof T, Keys>> & { [K in Keys]-?: Required<Pick<T, K>> & Partial<Pick<T, Exclude<Keys, K>>> }[Keys]`:
the mapped type has one member per member `K` of `Keys`, and indexing it with
`Keys` gives the union of them. -/
def RequireAtLeastOne (T : Shape) (Keys : KeyUnion) : Ty :=
  .inter (Pick T (Exclude (keyof T) Keys)).toTy
    (unionAll (Keys.members.map fun K =>
      .inter (RequiredOf (Pick T K)).toTy (PartialOf (Pick T (Exclude Keys K))).toTy))

/-- The properties of `{ id: string } & { [k in Keys]: Values }` for literal
keys, with `Values = string`. -/
def linkProps (Keys : List String) : Props :=
  ("id", false, .string) :: Keys.map fun k => (k, false, .string)

/-- The type `{ id: string } & { [k in Keys]: Values }` with `Values = string`:
one property per literal key, and a string index signature when `Keys` is
`string`. -/
def linkShape (Keys : KeyUnion) : Shape :=
  ⟨linkProps Keys.literals, if Keys.string then some .string else none, none⟩

/-- The type `RelationLink<Keys>` (`Keys extends string`, so a union of string
literals or `string`); the second parameter of `RequireAtLeastOne` takes its
default `keyof T`. -/
def RelationLink (Keys : KeyUnion) : Ty :=
  RequireAtLeastOne (linkShape Keys) (keyof (linkShape Keys))

/-- The type `RelationConnect<Keys>`; the declared default of `Keys` is `string`. -/
def RelationConnect (Keys : KeyUnion) : Ty :=
  .object [("connect", false, .union (RelationLink Keys) (.array (RelationLink Keys)))]

/-- The type `RelationReconnect<Keys>`; the declared default of `Keys` is `string`. -/
def RelationReconnect (Keys : KeyUnion) : Ty :=
  .object [("reconnect", false, .union (RelationLink Keys) (.array (RelationLink Keys)))]

/-- The type `RelationDisconnect<Keys>`; the declared default of `Keys` is `string`. -/
def RelationDisconnect (Keys : KeyUnion) : Ty :=
  .object [("disconnect", false, .union (RelationLink Keys) (.array (RelationLink Keys)))]

/-- The type `Filter<Keys>`; the declared default of `Keys` is `string`. -/
def Filter (Keys : KeyUnion) : Ty :=
  RequireAtLeastOne (linkShape Keys) (keyof (linkShape Keys))

end DataArguments.MigrationDataInputTypes

/-- The interface `DataArguments.MigrationDataDeleteInput`: `filter` is a
`Filter` with its default key set `string`. -/
def DataArguments.MigrationDataDeleteInput : Ty :=
  .object [("table", false, TableKey),
    ("filter", false, DataArguments.MigrationDataInputTypes.Filter stringKeys)]

/-- The parameter type of `DataApi.delete`. -/
def DataApi.delete : Ty := DataArguments.MigrationDataDeleteInput

/-- The parameter type of each operation of `SchemaApplicationApi`. -/
def SchemaApplicationApi.create : Ty := SchemaArguments.ApplicationCreate
def SchemaApplicationApi.delete : Ty :=
  .union SchemaArguments.ApplicationDelete SchemaArguments.DeleteById
def SchemaApplicationApi.update : Ty :=
  .union SchemaArguments.ApplicationUpdate SchemaArguments.ApplicationUpdateById

/-- The parameter type of each operation of `SchemaIndexApi`. -/
def SchemaIndexApi.create : Ty :=
  .union SchemaArguments.MigrationSchemaIndexCreate SchemaArguments.MigrationSchemaIndexCreateById
def SchemaIndexApi.delete : Ty :=
  .union SchemaArguments.MigrationSchemaIndexDelete SchemaArguments.DeleteById
def SchemaIndexApi.update : Ty :=
  .union SchemaArguments.MigrationSchemaIndexUpdate SchemaArguments.MigrationSchemaIndexUpdateById

/-- The parameter type of each operation of `SchemaFieldApi`. -/
def SchemaFieldApi.create : Ty :=
  .union SchemaArguments.FieldCreate SchemaArguments.FieldCreateById
def SchemaFieldApi.delete : Ty :=
  .union SchemaArguments.FieldDelete SchemaArguments.DeleteById
def SchemaFieldApi.update : Ty :=
  .union SchemaArguments.FieldUpdate SchemaArguments.FieldUpdateById

/-- The parameter type of each operation of `SchemaTableApi`. -/
def SchemaTableApi.create : Ty := SchemaArguments.TableCreate
def SchemaTableApi.delete : Ty :=
  .union SchemaArguments.TableDelete SchemaArguments.DeleteById
def SchemaTableApi.update : Ty :=
  .union SchemaArguments.TableUpdate SchemaArguments.TableUpdateById

/-- One property signature checked against the properties `fs` of a value. -/
def acceptsProp (fs : Fields) (p : String × Bool × Ty) : Bool :=
  match fs.lookup p.1 with
  | none => p.2.1
  | some .undefined => p.2.1
  | some v => conforms p.2.2 v

/-- An index-create argument that names no table. -/
def indexWithoutTable : JsVal :=
  .obj [("name", .str "email_idx"), ("type", .str "UNIQUE"),
    ("columns", .arr [.obj [("name", .str "email")]])]

/-- An application-update argument with both an id and a natural key. -/
def applicationUpdateWithBoth : JsVal :=
  .obj [("id", .str "a1"), ("application", .str "crm"), ("displayName", .str "CRM")]

/-- A table-create argument with both `applicationId` and `application`. -/
def tableCreateWithBoth : JsVal :=
  .obj [("id", .str "t1"), ("name", .str "contacts"), ("applicationId", .str "a1"),
    ("application", .str "crm")]

/-- Whether the `format` of an attribute object is one of `formats`. -/
def formatIn (formats : List String) (fs : Fields) : Bool :=
  match fs.lookup "format" with
  | some (.str s) => formats.contains s
  | _ => false

/-- Whether each of the optional attributes `attrs` is absent, `undefined` or
of its declared type in an attribute object. -/
def optionalOk (attrs : List (String × Ty)) (fs : Fields) : Bool :=
  attrs.all fun a => acceptsProp fs (a.1, true, a.2)

/-- A number attribute object whose format is `NUMBER` and whose `precision` is a string. -/
def numberAttributesWithTextPrecision : Fields :=
  [("format", .str "NUMBER"), ("precision", .str "2")]

/-- A link that sets `id` together with the alternate key `email`. -/
def linkWithIdAndEmail : JsVal := .obj [("id", .str "u1"), ("email", .str "a@b.c")]

/-- A record-delete argument whose filter sets no addressing field. -/
def deleteWithEmptyFilter : JsVal :=
  .obj [("table", .obj [("name", .str "contacts")]), ("filter", .obj [])]

/-- A number field-create payload without `fieldTypeAttributes`. -/
def numberFieldWithoutAttributes : Fields :=
  [("id", .str "f1"), ("name", .str "age"), ("fieldType", .str "NUMBER"),
    ("isRequired", .bool false), ("isList", .bool false),
    ("table", .obj [("name", .str "contacts")])]

/-- Whether the value is an object carrying the property `k` with a value other
than `undefined`. -/
def carries (k : String) (v : JsVal) : Bool :=
  match ownProps v with
  | some fs =>
    match fs.lookup k with
    | none => false
    | some .undefined => false
    | some _ => true
  | none => false

/-! ## The responses the handler properties speak of -/

/-- The success response: status 200, empty headers and the body
`JSON.stringify({ result: r })`. -/
def successResponse (r : JsVal) : JsVal :=
  .obj [("headers", .obj []), ("statusCode", .num 200),
    ("body", JSON.stringify (.obj [("result", r)]))]

/-- The object `responseBuilder(code, { errors })` returns for a code of 400 or more. -/
def failureResponse (now : String) (code : Int) (errors : JsVal) : JsVal :=
  .obj [("headers", .obj []), ("statusCude", .num code), ("errors", errors),
    ("timestamp", .str now)]

/-- The value read by `v.k` when `v` is an object with the properties `fs`. -/
def field (fs : Fields) (k : String) : JsVal := (fs.lookup k).getD .undefined

/-! ## Concrete inputs -/

/-- The time stamp used in the concrete runs. -/
def sampleNow : String := "2020-01-01T00:00:00.000Z"

/-- An event of the route `/users/7` that carries no `data`. -/
def eventWithoutData : JsVal := .obj [("pathParameters", .obj [("id", .str "7")])]

/-- An event that carries a body but no `pathParameters`. -/
def eventWithoutPathParameters : JsVal := .obj [("data", .obj [("email", .str "a@b.c")])]

/-- An event of the route `/users/7` whose body is the JSON array `[1]`. -/
def eventWithArrayData : JsVal :=
  .obj [("pathParameters", .obj [("id", .str "7")]), ("data", .arr [.num 1])]

/-- An event of the route `/users/7` whose body is a user record. -/
def sampleEvent : JsVal :=
  .obj [("pathParameters", .obj [("id", .str "7")]),
    ("data", .obj [("id", .str "1"), ("email", .str "a@b.c")])]

/-- A backend whose every request resolves with the same result object. -/
def resolvingContext (result : Fields) : Context := ⟨fun _ _ => .ok (.obj result)⟩

/-- A backend whose every request rejects with the same value. -/
def rejectingContext (e : JsVal) : Context := ⟨fun _ _ => .error e⟩

/-- A rejection that carries no `response`, as a failed connection produces. -/
def connectionError : JsVal := .obj [("message", .str "connect ECONNREFUSED")]

/-- A rejection of the GraphQL client: `response.errors` is the backend's error list. -/
def graphqlError : JsVal :=
  .obj [("response", .obj [("errors", .arr [.obj [("message", .str "Not Authorized")]])])]

/-! ## Properties of `responseBuilder` -/

/-- C1: on the error branch the returned object has no `statusCode` attribute.
For every code `400 + n`, every data object and every headers value,
`responseBuilder` returns an object in which `statusCode` reads `undefined`;
the code is stored under the misspelt name `statusCude`. -/
theorem responseBuilder_error_statusCode_undefined (now : String) (n : Nat) (dfs : Fields)
    (headers : JsVal) :
    ∃ r, (responseBuilder now (some (400 + (n : Int))) (.obj dfs) headers).completion = .ok r ∧
      getProp r "statusCode" = .ok .undefined ∧
      getProp r "statusCude" = .ok (.num (400 + (n : Int))) := by
  have h : (400 : Int) + (n : Int) ≥ 400 := by omega
  simp [responseBuilder, getProp, h, List.lookup]

/-- C2: for every code below 400, every data object and every headers object,
`responseBuilder` returns exactly the fields `headers` (the supplied headers),
`statusCode` (the code) and `body` (the string `JSON.stringify(data)`), logging
nothing; called without arguments it returns status 200, headers `{}` and the
body `"{}"`. -/
theorem responseBuilder_success (now : String) (code : Int) (dfs hfs : Fields)
    (h : code < 400) :
    responseBuilder now (some code) (.obj dfs) (.obj hfs) =
        ⟨.ok (.obj [("headers", .obj hfs), ("statusCode", .num code),
          ("body", JSON.stringify (.obj dfs))]), [], []⟩ ∧
      (∃ s, JSON.stringify (.obj dfs) = .str s) ∧
      responseBuilder now none .undefined .undefined =
        ⟨.ok (.obj [("headers", .obj []), ("statusCode", .num 200), ("body", .str "\x7b\x7d")]),
          [], []⟩ := by
  have h' : ¬ code ≥ 400 := by omega
  refine ⟨?_, ?_, ?_⟩
  · simp [responseBuilder, h']
  · exact ⟨_, rfl⟩
  · rfl

/-- Witness of `responseBuilder_success` at code 201. -/
theorem responseBuilder_success_witness :
    responseBuilder "2020-01-01T00:00:00.000Z" (some 201) (.obj [("result", .num 1)])
        (.obj [("x-id", .str "7")]) =
        ⟨.ok (.obj [("headers", .obj [("x-id", .str "7")]), ("statusCode", .num 201),
          ("body", JSON.stringify (.obj [("result", .num 1)]))]), [], []⟩ ∧
      (∃ s, JSON.stringify (.obj [("result", .num 1)]) = .str s) ∧
      responseBuilder "2020-01-01T00:00:00.000Z" none .undefined .undefined =
        ⟨.ok (.obj [("headers", .obj []), ("statusCode", .num 200), ("body", .str "\x7b\x7d")]),
          [], []⟩ :=
  responseBuilder_success "2020-01-01T00:00:00.000Z" 201 [("result", .num 1)]
    [("x-id", .str "7")] (by decide)

/-! ## Properties of the handlers -/

theorem responseBuilder_200 (now : String) (r : JsVal) :
    responseBuilder now (some 200) (.obj [("result", r)]) .undefined =
      ⟨.ok (successResponse r), [], []⟩ := by
  simp [responseBuilder, successResponse]

theorem responseBuilder_400 (now : String) (errors : JsVal) :
    responseBuilder now (some 400) (.obj [("errors", errors)]) .undefined =
      ⟨.ok (failureResponse now 400 errors), [], [failureResponse now 400 errors]⟩ := by
  simp [responseBuilder, failureResponse, getProp, List.lookup]

theorem catchClause_requests (now : String) (e : JsVal) : (catchClause now e).requests = [] := by
  unfold catchClause
  split
  · rfl
  · split
    · rfl
    · simp [responseBuilder_400]

theorem catchClause_of_response (now : String) (e resp errors : JsVal)
    (h1 : getProp e "response" = .ok resp) (h2 : getProp resp "errors" = .ok errors) :
    (catchClause now e).completion = .ok (failureResponse now 400 errors) := by
  simp [catchClause, h1, h2, responseBuilder_400]

theorem tryRequest_requests (now : String) (ctx : Context) (doc : Document) (vars : JsVal)
    (k : String) :
    (tryCatch now (requestThenRespond now ctx doc vars k)).requests = [(doc, vars)] := by
  unfold requestThenRespond
  cases h1 : ctx.gqlRequest doc vars with
  | error e => simp [tryCatch, catchClause_requests]
  | ok res =>
    cases h2 : getProp res k with
    | error t => simp [tryCatch, catchClause_requests, h2]
    | ok r => simp [tryCatch, Run.after, responseBuilder_200, h2]

theorem tryRequest_resolved (now : String) (ctx : Context) (doc : Document) (vars : JsVal)
    (k : String) (fs : Fields) (h : ctx.gqlRequest doc vars = .ok (.obj fs)) :
    (tryCatch now (requestThenRespond now ctx doc vars k)).completion
      = .ok (successResponse (field fs k)) := by
  simp [tryCatch, requestThenRespond, h, getProp, Run.after, responseBuilder_200, field]

theorem tryRequest_rejected (now : String) (ctx : Context) (doc : Document) (vars : JsVal)
    (k : String) (e resp errors : JsVal) (h : ctx.gqlRequest doc vars = .error e)
    (h1 : getProp e "response" = .ok resp) (h2 : getProp resp "errors" = .ok errors) :
    (tryCatch now (requestThenRespond now ctx doc vars k)).completion
      = .ok (failureResponse now 400 errors) := by
  simp [tryCatch, requestThenRespond, h, catchClause_of_response now e resp errors h1 h2]

theorem tryThrow_requests (now : String) (t : JsVal) :
    (tryCatch now (Run.throw t)).requests = [] := by
  simp [tryCatch, Run.throw, catchClause_requests]

theorem create_handler_shape (now : String) (event : JsVal) (ctx : Context) :
    (users.create.handler now event ctx).requests = [] ∨
      ∃ vars, users.create.handler now event ctx
        = tryCatch now (requestThenRespond now ctx users.create.MUTATION vars "userCreate") := by
  unfold users.create.handler
  cases h : getProp event "data" with
  | error t => exact Or.inl (tryThrow_requests now t)
  | ok data => exact Or.inr ⟨_, rfl⟩

theorem delete_handler_shape (now : String) (event : JsVal) (ctx : Context) :
    (users.delete.handler now event ctx).requests = [] ∨
      ∃ vars, users.delete.handler now event ctx
        = tryCatch now (requestThenRespond now ctx users.delete.MUTATION vars "userDelete") := by
  unfold users.delete.handler
  cases h : getProp event "pathParameters" with
  | error t => exact Or.inl rfl
  | ok pp =>
    cases h2 : getProp pp "id" with
    | error t => simp [h2, Run.throw]
    | ok id =>
      simp only [h2]
      exact Or.inr ⟨_, rfl⟩

theorem edit_handler_shape (now : String) (event : JsVal) (ctx : Context) :
    (users.edit.handler now event ctx).requests = [] ∨
      ∃ vars, users.edit.handler now event ctx
        = tryCatch now (requestThenRespond now ctx users.edit.MUTATION vars "userUpdate") := by
  unfold users.edit.handler
  cases h : getProp event "pathParameters" with
  | error t => exact Or.inl rfl
  | ok pp =>
    cases h2 : getProp pp "id" with
    | error t => simp [h2, Run.throw]
    | ok id =>
      cases h3 : getProp event "data" with
      | error t => simp [h2, h3, Run.throw]
      | ok eventData =>
        cases h4 : objectAssign eventData [("id", id)] with
        | error t => simp [h2, h3, h4, Run.throw]
        | ok data =>
          simp only [h2, h3, h4]
          exact Or.inr ⟨_, rfl⟩

theorem request_eq_of_singleton {doc d : Document} {vars v : JsVal}
    (h : [(doc, vars)] = [(d, v)]) : doc = d ∧ vars = v := by
  simp at h
  exact h

theorem lookup_setField_self (k : String) (v : JsVal) (fs : Fields) :
    (setField k v fs).lookup k = some v := by
  induction fs with
  | nil => simp [setField, List.lookup]
  | cons p fs ih =>
    obtain ⟨k', v'⟩ := p
    by_cases hk : k' = k
    · simp [setField, hk, List.lookup]
    · have hne : (k == k') = false := by simpa using fun h => hk h.symm
      simp [setField, hk, List.lookup, hne, ih]

theorem lookup_setField_other (k k' : String) (v : JsVal) (fs : Fields) (h : k' ≠ k) :
    (setField k v fs).lookup k' = fs.lookup k' := by
  induction fs with
  | nil =>
    have hne : (k' == k) = false := by simpa using h
    simp [setField, List.lookup, hne]
  | cons p fs ih =>
    obtain ⟨k₁, v₁⟩ := p
    by_cases hk : k₁ = k
    · subst hk
      have hne : (k' == k₁) = false := by simpa using h
      simp [setField, List.lookup, hne]
    · cases hb : (k' == k₁) <;> simp [setField, hk, List.lookup, hb, ih]

theorem objectAssign_id (data id : JsVal) (hu : data ≠ .undefined) (hn : data ≠ .null) :
    ∃ assigned, objectAssign data [("id", id)] = .ok assigned ∧
      getProp assigned "id" = .ok id ∧
      ∀ k, k ≠ "id" → getProp assigned k = getProp data k := by
  cases data with
  | undefined => exact absurd rfl hu
  | null => exact absurd rfl hn
  | obj fs =>
    refine ⟨_, rfl, ?_, ?_⟩
    · simp [getProp, assignFields, lookup_setField_self]
    · intro k hk
      simp [getProp, assignFields, lookup_setField_other "id" k id fs hk]
  | boxed base props =>
    refine ⟨_, rfl, ?_, ?_⟩
    · simp [getProp, assignFields, lookup_setField_self]
    · intro k hk
      simp [getProp, assignFields, lookup_setField_other "id" k id props hk]
  | bool b =>
    refine ⟨_, rfl, ?_, ?_⟩
    · simp [getProp, assignFields, setField, List.lookup]
    · intro k hk
      have hne : (k == "id") = false := by simpa using hk
      simp [getProp, assignFields, setField, List.lookup, hne]
  | num n =>
    refine ⟨_, rfl, ?_, ?_⟩
    · simp [getProp, assignFields, setField, List.lookup]
    · intro k hk
      have hne : (k == "id") = false := by simpa using hk
      simp [getProp, assignFields, setField, List.lookup, hne]
  | str x =>
    refine ⟨_, rfl, ?_, ?_⟩
    · simp [getProp, assignFields, setField, List.lookup]
    · intro k hk
      have hne : (k == "id") = false := by simpa using hk
      simp [getProp, assignFields, setField, List.lookup, hne]
  | arr xs =>
    refine ⟨_, rfl, ?_, ?_⟩
    · simp [getProp, assignFields, setField, List.lookup]
    · intro k hk
      have hne : (k == "id") = false := by simpa using hk
      simp [getProp, assignFields, setField, List.lookup, hne]

theorem get_handler_resolved (now : String) (event : JsVal) (ctx : Context) (d : Document)
    (v : JsVal) (fs : Fields) (hreq : (users.get.handler now event ctx).requests = [(d, v)])
    (hres : ctx.gqlRequest d v = .ok (.obj fs)) :
    users.get.handler now event ctx =
      Run.after [(d, v)]
        (if !truthy (field fs "user") then
          responseBuilder now (some 404)
            (.obj [("message", .str "No record found."), ("errors", .arr [])]) .undefined
        else responseBuilder now (some 200) (.obj [("result", field fs "user")]) .undefined) := by
  unfold users.get.handler at hreq ⊢
  cases h : getProp event "pathParameters" with
  | error t => simp [h, Run.throw] at hreq
  | ok pp =>
    cases h2 : getProp pp "id" with
    | error t => simp [h, h2, Run.throw] at hreq
    | ok id =>
      simp only [h, h2] at hreq ⊢
      cases h3 : ctx.gqlRequest users.get.QUERY (.obj [("id", id)]) with
      | error e =>
        simp only [h3] at hreq
        obtain ⟨rfl, rfl⟩ := request_eq_of_singleton hreq
        rw [h3] at hres
        cases hres
      | ok res =>
        have hreq' : [(users.get.QUERY, JsVal.obj [("id", id)])] = [(d, v)] := by
          simp only [h3] at hreq
          revert hreq
          cases getProp res "user" with
          | error t => exact fun hh => hh
          | ok user =>
            by_cases hu : truthy user = true <;>
              simp [hu, Run.after, responseBuilder, getProp, List.lookup]
        obtain ⟨rfl, rfl⟩ := request_eq_of_singleton hreq'
        rw [h3] at hres
        cases hres
        have hu : getProp (.obj fs) "user" = .ok (field fs "user") := rfl
        simp only [hu]
        split <;> rfl

theorem responseBuilder_404 (now : String) :
    responseBuilder now (some 404)
        (.obj [("message", .str "No record found."), ("errors", .arr [])]) .undefined =
      ⟨.ok (failureResponse now 404 (.arr [])), [], [failureResponse now 404 (.arr [])]⟩ := by
  simp [responseBuilder, failureResponse, getProp, List.lookup]

/-- C3: whenever the `gqlRequest` call of a handler resolves with a result
object, the create, edit, delete and list handlers return the response with
status 200, empty headers and the body `JSON.stringify({ result: r })`, where
`r` is the field `userCreate`, `userUpdate`, `userDelete`, `usersList` of the
result; the get handler does the same with `r = user` whenever `user` is
non-null, that is, an object (the query selects sub-fields of `user`).  The list
handler issues its request for every event. -/
theorem handlers_success_response (now : String) (event : JsVal) (ctx : Context) (d : Document)
    (v : JsVal) (fs : Fields) (hres : ctx.gqlRequest d v = .ok (.obj fs)) :
    ((users.create.handler now event ctx).requests = [(d, v)] →
        (users.create.handler now event ctx).completion
          = .ok (successResponse (field fs "userCreate"))) ∧
      ((users.edit.handler now event ctx).requests = [(d, v)] →
        (users.edit.handler now event ctx).completion
          = .ok (successResponse (field fs "userUpdate"))) ∧
      ((users.delete.handler now event ctx).requests = [(d, v)] →
        (users.delete.handler now event ctx).completion
          = .ok (successResponse (field fs "userDelete"))) ∧
      ((users.list.handler now event ctx).requests = [(d, v)] →
        (users.list.handler now event ctx).completion
          = .ok (successResponse (field fs "usersList"))) ∧
      ((users.get.handler now event ctx).requests = [(d, v)] →
        ∀ ufs, field fs "user" = .obj ufs →
        (users.get.handler now event ctx).completion
          = .ok (successResponse (.obj ufs))) ∧
      (users.list.handler now event ctx).requests = [(users.list.QUERY, .undefined)] := by
  refine ⟨?_, ?_, ?_, ?_, ?_, ?_⟩
  · intro hreq
    rcases create_handler_shape now event ctx with h0 | ⟨vars, hs⟩
    · rw [h0] at hreq
      simp at hreq
    · rw [hs, tryRequest_requests] at hreq
      obtain ⟨rfl, rfl⟩ := request_eq_of_singleton hreq
      rw [hs]
      exact tryRequest_resolved now ctx _ _ _ fs hres
  · intro hreq
    rcases edit_handler_shape now event ctx with h0 | ⟨vars, hs⟩
    · rw [h0] at hreq
      simp at hreq
    · rw [hs, tryRequest_requests] at hreq
      obtain ⟨rfl, rfl⟩ := request_eq_of_singleton hreq
      rw [hs]
      exact tryRequest_resolved now ctx _ _ _ fs hres
  · intro hreq
    rcases delete_handler_shape now event ctx with h0 | ⟨vars, hs⟩
    · rw [h0] at hreq
      simp at hreq
    · rw [hs, tryRequest_requests] at hreq
      obtain ⟨rfl, rfl⟩ := request_eq_of_singleton hreq
      rw [hs]
      exact tryRequest_resolved now ctx _ _ _ fs hres
  · intro hreq
    unfold users.list.handler at hreq ⊢
    cases h : ctx.gqlRequest users.list.QUERY .undefined with
    | error e =>
      simp only [h] at hreq
      obtain ⟨rfl, rfl⟩ := request_eq_of_singleton hreq
      rw [h] at hres
      cases hres
    | ok res =>
      cases h2 : getProp res "usersList" with
      | error t =>
        simp only [h, h2] at hreq
        obtain ⟨rfl, rfl⟩ := request_eq_of_singleton hreq
        rw [h] at hres
        cases hres
        simp [getProp] at h2
      | ok r =>
        simp only [h, h2, Run.after, responseBuilder_200, List.append_nil] at hreq ⊢
        obtain ⟨rfl, rfl⟩ := request_eq_of_singleton hreq
        rw [h] at hres
        cases hres
        simp [getProp] at h2
        simp [field, h2]
  · intro hreq ufs huser
    rw [get_handler_resolved now event ctx d v fs hreq hres]
    simp [huser, truthy, Run.after, responseBuilder_200]
  · unfold users.list.handler
    cases h : ctx.gqlRequest users.list.QUERY .undefined with
    | error e => rfl
    | ok res =>
      cases h2 : getProp res "usersList" with
      | error t => simp [h2]
      | ok r => simp [h2, Run.after, responseBuilder_200]

/-- Witness of `handlers_success_response`: the create handler on a backend
that resolves with a created user, the edit handler on an event whose body is a
JSON array, and the get handler on a backend that resolves with a user. -/
theorem handlers_success_response_witness :
    (users.create.handler sampleNow sampleEvent
        (resolvingContext [("userCreate", .obj [("id", .str "1")])])).completion
      = .ok (successResponse (.obj [("id", .str "1")])) ∧
    (users.edit.handler sampleNow eventWithArrayData
        (resolvingContext [("userUpdate", .obj [("id", .str "7")])])).completion
      = .ok (successResponse (.obj [("id", .str "7")])) ∧
    (users.get.handler sampleNow sampleEvent
        (resolvingContext [("user", .obj [("id", .str "7")])])).completion
      = .ok (successResponse (.obj [("id", .str "7")])) :=
  ⟨(handlers_success_response sampleNow sampleEvent
      (resolvingContext [("userCreate", .obj [("id", .str "1")])]) users.create.MUTATION
      (.obj [("data", .obj [("id", .str "1"), ("email", .str "a@b.c")])])
      [("userCreate", .obj [("id", .str "1")])] rfl).1 rfl,
    (handlers_success_response sampleNow eventWithArrayData
      (resolvingContext [("userUpdate", .obj [("id", .str "7")])]) users.edit.MUTATION
      (.obj [("data", .boxed (.arr [.num 1]) [("id", .str "7")])])
      [("userUpdate", .obj [("id", .str "7")])] rfl).2.1 rfl,
    (handlers_success_response sampleNow sampleEvent
      (resolvingContext [("user", .obj [("id", .str "7")])]) users.get.QUERY
      (.obj [("id", .str "7")]) [("user", .obj [("id", .str "7")])] rfl).2.2.2.2.1 rfl _ rfl⟩

/-- C8: when the user query of the get handler resolves with `user` null or
absent, the handler returns the object `headers`, `statusCude`, `errors`,
`timestamp`: it has no `statusCode` and no `message`; only the status under the
misspelt key and the empty `errors` list are carried. -/
theorem get_handler_not_found_response (now : String) (event : JsVal) (ctx : Context)
    (d : Document) (v : JsVal) (fs : Fields)
    (hreq : (users.get.handler now event ctx).requests = [(d, v)])
    (hres : ctx.gqlRequest d v = .ok (.obj fs))
    (huser : field fs "user" = .null ∨ field fs "user" = .undefined) :
    (users.get.handler now event ctx).completion
        = .ok (failureResponse now 404 (.arr [])) ∧
      getProp (failureResponse now 404 (.arr [])) "statusCode" = .ok .undefined ∧
      getProp (failureResponse now 404 (.arr [])) "message" = .ok .undefined ∧
      getProp (failureResponse now 404 (.arr [])) "statusCude" = .ok (.num 404) ∧
      getProp (failureResponse now 404 (.arr [])) "errors" = .ok (.arr []) := by
  refine ⟨?_, rfl, rfl, rfl, rfl⟩
  rw [get_handler_resolved now event ctx d v fs hreq hres]
  rcases huser with h | h <;> simp [h, truthy, Run.after, responseBuilder_404]

/-- Witness of `get_handler_not_found_response`: the get handler for `/users/7`
on a backend that resolves with `user: null`. -/
theorem get_handler_not_found_response_witness :
    (users.get.handler sampleNow sampleEvent (resolvingContext [("user", .null)])).completion
        = .ok (failureResponse sampleNow 404 (.arr [])) ∧
      getProp (failureResponse sampleNow 404 (.arr [])) "statusCode" = .ok .undefined ∧
      getProp (failureResponse sampleNow 404 (.arr [])) "message" = .ok .undefined ∧
      getProp (failureResponse sampleNow 404 (.arr [])) "statusCude" = .ok (.num 404) ∧
      getProp (failureResponse sampleNow 404 (.arr [])) "errors" = .ok (.arr []) :=
  get_handler_not_found_response sampleNow sampleEvent (resolvingContext [("user", .null)])
    users.get.QUERY (.obj [("id", .str "7")]) [("user", .null)] rfl rfl (Or.inl rfl)

/-- C9 (counterexample): when the request rejects with a value that has no
`response`, the create handler itself fails with a `TypeError`. -/
theorem create_handler_fails_on_connection_error :
    (rejectingContext connectionError).gqlRequest users.create.MUTATION
        (.obj [("data", .obj [("id", .str "1"), ("email", .str "a@b.c")])])
        = .error connectionError ∧
      (users.create.handler sampleNow sampleEvent (rejectingContext connectionError)).requests
        = [(users.create.MUTATION, .obj [("data", .obj [("id", .str "1"), ("email", .str "a@b.c")])])] ∧
      (users.create.handler sampleNow sampleEvent (rejectingContext connectionError)).completion
        = .error typeError := by
  refine ⟨rfl, rfl, rfl⟩

/-- C9 (amended): for each of the create, edit and delete handlers, whenever
`ctx.api.gqlRequest` fails, rejecting with a value `e` whose `response` can be
destructured (neither `e` nor `e.response` is null or undefined), the handler
does not fail: it returns what `responseBuilder(400, { errors })` returns, with
`errors` read from `e.response.errors`. -/
theorem handlers_failure_response (now : String) (event : JsVal) (ctx : Context) (d : Document)
    (v e resp errors : JsVal) (hrej : ctx.gqlRequest d v = .error e)
    (h1 : getProp e "response" = .ok resp) (h2 : getProp resp "errors" = .ok errors) :
    ((users.create.handler now event ctx).requests = [(d, v)] →
        (users.create.handler now event ctx).completion
          = .ok (failureResponse now 400 errors)) ∧
      ((users.edit.handler now event ctx).requests = [(d, v)] →
        (users.edit.handler now event ctx).completion
          = .ok (failureResponse now 400 errors)) ∧
      ((users.delete.handler now event ctx).requests = [(d, v)] →
        (users.delete.handler now event ctx).completion
          = .ok (failureResponse now 400 errors)) ∧
      (responseBuilder now (some 400) (.obj [("errors", errors)]) .undefined).completion
        = .ok (failureResponse now 400 errors) := by
  refine ⟨?_, ?_, ?_, ?_⟩
  · intro hreq
    rcases create_handler_shape now event ctx with h0 | ⟨vars, hs⟩
    · rw [h0] at hreq
      simp at hreq
    · rw [hs, tryRequest_requests] at hreq
      obtain ⟨rfl, rfl⟩ := request_eq_of_singleton hreq
      rw [hs]
      exact tryRequest_rejected now ctx _ _ _ e resp errors hrej h1 h2
  · intro hreq
    rcases edit_handler_shape now event ctx with h0 | ⟨vars, hs⟩
    · rw [h0] at hreq
      simp at hreq
    · rw [hs, tryRequest_requests] at hreq
      obtain ⟨rfl, rfl⟩ := request_eq_of_singleton hreq
      rw [hs]
      exact tryRequest_rejected now ctx _ _ _ e resp errors hrej h1 h2
  · intro hreq
    rcases delete_handler_shape now event ctx with h0 | ⟨vars, hs⟩
    · rw [h0] at hreq
      simp at hreq
    · rw [hs, tryRequest_requests] at hreq
      obtain ⟨rfl, rfl⟩ := request_eq_of_singleton hreq
      rw [hs]
      exact tryRequest_rejected now ctx _ _ _ e resp errors hrej h1 h2
  · rw [responseBuilder_400]

/-- Witness of `handlers_failure_response`: the delete handler, and the edit
handler on an event whose body is a JSON array, on a backend that rejects with
a GraphQL error. -/
theorem handlers_failure_response_witness :
    (users.delete.handler sampleNow sampleEvent (rejectingContext graphqlError)).completion
      = .ok (failureResponse sampleNow 400 (.arr [.obj [("message", .str "Not Authorized")]])) ∧
    (users.edit.handler sampleNow eventWithArrayData (rejectingContext graphqlError)).completion
      = .ok (failureResponse sampleNow 400 (.arr [.obj [("message", .str "Not Authorized")]])) :=
  ⟨(handlers_failure_response sampleNow sampleEvent (rejectingContext graphqlError)
      users.delete.MUTATION (.obj [("id", .str "7")]) graphqlError
      (.obj [("errors", .arr [.obj [("message", .str "Not Authorized")]])])
      (.arr [.obj [("message", .str "Not Authorized")]]) rfl rfl rfl).2.2.1 rfl,
    (handlers_failure_response sampleNow eventWithArrayData (rejectingContext graphqlError)
      users.edit.MUTATION (.obj [("data", .boxed (.arr [.num 1]) [("id", .str "7")])])
      graphqlError (.obj [("errors", .arr [.obj [("message", .str "Not Authorized")]])])
      (.arr [.obj [("message", .str "Not Authorized")]]) rfl rfl rfl).2.1 rfl⟩

/-- C10 (counterexample): on an event without `data` the edit handler throws a
`TypeError` from `Object.assign` and issues no request, and on an event without
`pathParameters` the delete handler throws a `TypeError` and issues no request. -/
theorem edit_delete_without_input_issue_no_request :
    users.edit.handler sampleNow eventWithoutData (resolvingContext [])
        = ⟨.error typeError, [], []⟩ ∧
      users.delete.handler sampleNow eventWithoutPathParameters (resolvingContext [])
        = ⟨.error typeError, [], []⟩ := by
  exact ⟨rfl, rfl⟩

/-- C10 (amended): for every event whose `pathParameters` and `data` are
neither null nor undefined, the edit handler issues exactly one request, for
`MUTATION`, whose variable `data` is `Object.assign(event.data, { id })`: it
has `id` equal to `event.pathParameters.id` and every other property as in
`event.data`; for every event whose
`pathParameters` is neither null nor undefined the delete handler issues exactly
one request, with the variables `{ id: event.pathParameters.id }`. -/
theorem edit_delete_requests (now : String) (event : JsVal) (ctx : Context) (pp id : JsVal)
    (hpp : getProp event "pathParameters" = .ok pp) (hid : getProp pp "id" = .ok id) :
    (∀ data, getProp event "data" = .ok data → data ≠ .undefined → data ≠ .null →
      ∃ assigned, (users.edit.handler now event ctx).requests
          = [(users.edit.MUTATION, .obj [("data", assigned)])] ∧
        objectAssign data [("id", id)] = .ok assigned ∧
        getProp assigned "id" = .ok id ∧
        ∀ k, k ≠ "id" → getProp assigned k = getProp data k) ∧
      (users.delete.handler now event ctx).requests
        = [(users.delete.MUTATION, .obj [("id", id)])] := by
  constructor
  · intro data hdata hu hn
    obtain ⟨assigned, hassign, hidv, hother⟩ := objectAssign_id data id hu hn
    refine ⟨assigned, ?_, hassign, hidv, hother⟩
    simp only [users.edit.handler, hpp, hid, hdata, hassign]
    exact tryRequest_requests now ctx _ _ _
  · simp only [users.delete.handler, hpp, hid]
    exact tryRequest_requests now ctx _ _ _

/-- Witness of `edit_delete_requests`: the edit handler on `/users/7` with an
object body and with an array body, and the delete handler; the `id` of the
body is overridden by the path parameter. -/
theorem edit_delete_requests_witness :
    (users.edit.handler sampleNow sampleEvent (resolvingContext [])).requests
        = [(users.edit.MUTATION,
            .obj [("data", .obj [("id", .str "7"), ("email", .str "a@b.c")])])] ∧
      (∃ assigned, (users.edit.handler sampleNow eventWithArrayData (resolvingContext [])).requests
          = [(users.edit.MUTATION, .obj [("data", assigned)])] ∧
        objectAssign (.arr [.num 1]) [("id", .str "7")] = .ok assigned ∧
        getProp assigned "id" = .ok (.str "7") ∧
        ∀ k, k ≠ "id" → getProp assigned k = getProp (.arr [.num 1]) k) ∧
      (users.delete.handler sampleNow sampleEvent (resolvingContext [])).requests
        = [(users.delete.MUTATION, .obj [("id", .str "7")])] :=
  ⟨rfl,
    (edit_delete_requests sampleNow eventWithArrayData (resolvingContext [])
      (.obj [("id", .str "7")]) (.str "7") rfl rfl).1 _ rfl (by simp) (by simp),
    (edit_delete_requests sampleNow sampleEvent (resolvingContext [])
      (.obj [("id", .str "7")]) (.str "7") rfl rfl).2⟩

/-! ## Properties of the migration argument types -/

theorem conformsProps_iff (ps : Props) (fs : Fields) :
    conformsProps ps fs = true ↔ ∀ p ∈ ps, acceptsProp fs p = true := by
  induction ps with
  | nil => simp [conformsProps]
  | cons p ps ih =>
    obtain ⟨k, o, t⟩ := p
    simp only [conformsProps, Bool.and_eq_true, ih, List.mem_cons, forall_eq_or_imp]
    constructor
    · rintro ⟨h1, h2⟩
      refine ⟨?_, h2⟩
      simpa [acceptsProp] using h1
    · rintro ⟨h1, h2⟩
      refine ⟨?_, h2⟩
      simpa [acceptsProp] using h1

theorem conforms_object_obj (ps : Props) (fs : Fields) :
    conforms (.object ps) (.obj fs) = conformsProps ps fs := by
  simp [conforms, ownProps]

theorem conforms_object (ps : Props) (v : JsVal) (h : conforms (.object ps) v = true) :
    ∃ fs, ownProps v = some fs ∧ ∀ p ∈ ps, acceptsProp fs p = true := by
  simp only [conforms] at h
  cases hv : ownProps v with
  | none => simp [hv] at h
  | some fs =>
    simp only [hv] at h
    exact ⟨fs, rfl, (conformsProps_iff _ _).1 h⟩

theorem conforms_union (a b : Ty) (v : JsVal) :
    conforms (.union a b) v = (conforms a v || conforms b v) := by
  simp [conforms]

theorem conforms_inter (a b : Ty) (v : JsVal) :
    conforms (.inter a b) v = (conforms a v && conforms b v) := by
  simp [conforms]

theorem carries_of_acceptsProp (v : JsVal) (fs : Fields) (k : String) (t : Ty)
    (hv : ownProps v = some fs) (h : acceptsProp fs (k, false, t) = true) :
    carries k v = true := by
  unfold acceptsProp at h
  unfold carries
  rw [hv]
  cases hl : fs.lookup k with
  | none => simp [hl] at h
  | some x =>
    cases x <;> simp_all

theorem carries_of_conforms (ps : Props) (k : String) (t : Ty) (v : JsVal)
    (hmem : (k, false, t) ∈ ps) (h : conforms (.object ps) v = true) : carries k v = true := by
  obtain ⟨fs, hv, hall⟩ := conforms_object ps v h
  exact carries_of_acceptsProp v fs k t hv (hall _ hmem)

theorem carries_of_inter (a : Ty) (ps : Props) (k : String) (t : Ty) (v : JsVal)
    (hmem : (k, false, t) ∈ ps) (h : conforms (.inter a (.object ps)) v = true) :
    carries k v = true := by
  rw [conforms_inter, Bool.and_eq_true] at h
  exact carries_of_conforms ps k t v hmem h.2

theorem carries_or_of_union (a b : Ty) (ka kb : String) (v : JsVal)
    (ha : conforms a v = true → carries ka v = true)
    (hb : conforms b v = true → carries kb v = true)
    (h : conforms (.union a b) v = true) : carries kb v = true ∨ carries ka v = true := by
  rw [conforms_union, Bool.or_eq_true] at h
  rcases h with h | h
  · exact Or.inr (ha h)
  · exact Or.inl (hb h)

/-- C5 (counterexample): an application-update argument that carries both `id`
and `application` is accepted, and so is a table-create argument that carries
both `applicationId` and `application`. -/
theorem both_addressing_modes_accepted :
    conforms SchemaApplicationApi.update applicationUpdateWithBoth = true ∧
      carries "id" applicationUpdateWithBoth = true ∧
      carries "application" applicationUpdateWithBoth = true ∧
      conforms SchemaTableApi.create tableCreateWithBoth = true ∧
      carries "applicationId" tableCreateWithBoth = true ∧
      carries "application" tableCreateWithBoth = true := by
  decide

/-- C5 (amended): at least one addressing mode is used per update or delete
call: every argument accepted by the update or delete operation of
application, table, field or index carries an `id` or the natural-key object of
the entity (`application`, `table`, `field`, `index`). -/
theorem update_delete_addressed (v : JsVal) :
    (conforms SchemaApplicationApi.update v = true →
        carries "id" v = true ∨ carries "application" v = true) ∧
      (conforms SchemaApplicationApi.delete v = true →
        carries "id" v = true ∨ carries "application" v = true) ∧
      (conforms SchemaTableApi.update v = true →
        carries "id" v = true ∨ carries "table" v = true) ∧
      (conforms SchemaTableApi.delete v = true →
        carries "id" v = true ∨ carries "table" v = true) ∧
      (conforms SchemaFieldApi.update v = true →
        carries "id" v = true ∨ carries "field" v = true) ∧
      (conforms SchemaFieldApi.delete v = true →
        carries "id" v = true ∨ carries "field" v = true) ∧
      (conforms SchemaIndexApi.update v = true →
        carries "id" v = true ∨ carries "index" v = true) ∧
      (conforms SchemaIndexApi.delete v = true →
        carries "id" v = true ∨ carries "index" v = true) := by
  refine ⟨?_, ?_, ?_, ?_, ?_, ?_, ?_, ?_⟩
  · exact carries_or_of_union _ _ _ _ v
      (carries_of_conforms _ "application" ApplicationKey v (by simp [extend, Ty.props]))
      (carries_of_conforms _ "id" .string v (by simp [extend, Ty.props]))
  · exact carries_or_of_union _ _ _ _ v
      (carries_of_conforms _ "application" ApplicationKey v (by simp))
      (carries_of_conforms _ "id" .string v (by simp))
  · exact carries_or_of_union _ _ _ _ v
      (carries_of_conforms _ "table" TableKey v (by simp [extend, Ty.props]))
      (carries_of_conforms _ "id" .string v (by simp [extend, Ty.props]))
  · exact carries_or_of_union _ _ _ _ v
      (carries_of_conforms _ "table" _ v (List.mem_singleton.2 rfl))
      (carries_of_conforms _ "id" .string v (by simp))
  · exact carries_or_of_union _ _ _ _ v
      (carries_of_inter _ _ "field" FieldKey v (by simp))
      (carries_of_inter _ _ "id" .string v (by simp))
  · exact carries_or_of_union _ _ _ _ v
      (carries_of_conforms _ "field" FieldKey v (by simp))
      (carries_of_conforms _ "id" .string v (by simp))
  · exact carries_or_of_union _ _ _ _ v
      (carries_of_conforms _ "index" IndexKey v (by simp [extend, Ty.props]))
      (carries_of_conforms _ "id" .string v (by simp [extend, Ty.props]))
  · exact carries_or_of_union _ _ _ _ v
      (carries_of_conforms _ "index" IndexKey v (by simp))
      (carries_of_conforms _ "id" .string v (by simp))

/-- C7: an index-create argument without `tableId` and without `table` is
accepted by `schema.index.create`, whereas every argument accepted by
`schema.field.create` carries `tableId` or `table`. -/
theorem index_create_accepts_missing_table :
    conforms SchemaIndexApi.create indexWithoutTable = true ∧
      carries "tableId" indexWithoutTable = false ∧
      carries "table" indexWithoutTable = false ∧
      ∀ v, conforms SchemaFieldApi.create v = true →
        carries "tableId" v = true ∨ carries "table" v = true := by
  refine ⟨by decide, by decide, by decide, ?_⟩
  intro v
  exact carries_or_of_union _ _ _ _ v
    (carries_of_inter _ _ "table" TableKey v (by simp))
    (carries_of_inter _ _ "tableId" .string v (by simp))


open DataArguments.MigrationDataInputTypes

theorem conforms_unionAll (ts : List Ty) (v : JsVal) :
    conforms (unionAll ts) v = ts.any (fun t => conforms t v) := by
  induction ts with
  | nil => simp [unionAll, conforms]
  | cons t ts ih =>
    cases ts with
    | nil => simp [unionAll]
    | cons t' ts' =>
      show conforms (.union t (unionAll (t' :: ts'))) v = _
      rw [conforms_union, ih]
      simp

theorem mem_linkProps (Keys : List String) (p : String × Bool × Ty) :
    p ∈ linkProps Keys ↔ ∃ k ∈ "id" :: Keys, p = (k, false, .string) := by
  simp only [linkProps, List.mem_cons, List.mem_map]
  constructor
  · rintro (rfl | ⟨k, hk, rfl⟩)
    · exact ⟨"id", Or.inl rfl, rfl⟩
    · exact ⟨k, Or.inr hk, rfl⟩
  · rintro ⟨k, (rfl | hk), rfl⟩
    · exact Or.inl rfl
    · exact Or.inr ⟨k, hk, rfl⟩

theorem acceptsProp_required_string (fs : Fields) (k : String) :
    acceptsProp fs (k, false, .string) = true ↔ ∃ s, fs.lookup k = some (.str s) := by
  unfold acceptsProp
  cases h : fs.lookup k with
  | none => simp
  | some x => cases x <;> simp [conforms]

theorem acceptsProp_optional_string (fs : Fields) (k : String) :
    acceptsProp fs (k, true, .string) = true ↔
      (fs.lookup k = none ∨ fs.lookup k = some .undefined ∨ ∃ s, fs.lookup k = some (.str s)) := by
  unfold acceptsProp
  cases h : fs.lookup k with
  | none => simp
  | some x => cases x <;> simp [conforms]

theorem any_map_conforms {α : Type} (l : List α) (f : α → Ty) (v : JsVal) :
    (l.map f).any (fun t => conforms t v) = l.any (fun a => conforms (f a) v) := by
  induction l with
  | nil => rfl
  | cons a l ih => simp [ih]

theorem requireAtLeastOne_named (ps : Props) (Keys : KeyUnion) (v : JsVal) :
    conforms (RequireAtLeastOne ⟨ps, none, none⟩ Keys) v =
      (conforms (.object (ps.filter fun p =>
          (Exclude (keyof ⟨ps, none, none⟩) Keys).literals.contains p.1)) v &&
        Keys.members.any fun K =>
          conforms (.object (RequiredProps (ps.filter fun p => K.literals.contains p.1))) v &&
          conforms (.object (PartialProps (ps.filter fun p =>
            (Exclude Keys K).literals.contains p.1))) v) := by
  simp only [RequireAtLeastOne, conforms_inter, conforms_unionAll, Pick, RequiredOf, PartialOf,
    Shape.toTy, ite_self, Option.map_none']
  rw [any_map_conforms]
  simp only [conforms_inter]

theorem requireAtLeastOne_literal_iff (ks : List String) (fs : Fields) :
    conforms (RequireAtLeastOne (linkShape (literalKeys ks)) (keyof (linkShape (literalKeys ks))))
        (.obj fs) = true ↔
      (∃ k ∈ "id" :: ks, ∃ s, fs.lookup k = some (.str s)) ∧
      (∀ k ∈ "id" :: ks, fs.lookup k = none ∨ fs.lookup k = some .undefined ∨
        ∃ s, fs.lookup k = some (.str s)) := by
  have hK : keyof (linkShape (literalKeys ks)) = ⟨"id" :: ks, false, false⟩ := by
    simp [keyof, linkShape, literalKeys, linkProps, Function.comp_def]
  have hT : linkShape (literalKeys ks) = ⟨linkProps ks, none, none⟩ := rfl
  rw [hK, hT, requireAtLeastOne_named, Bool.and_eq_true, List.any_eq_true]
  rw [← hT, hK]
  have hfirst : conforms (.object ((linkProps ks).filter fun p =>
      (Exclude ⟨"id" :: ks, false, false⟩ ⟨"id" :: ks, false, false⟩).literals.contains p.1))
      (.obj fs) = true := by
    rw [conforms_object_obj, conformsProps_iff]
    intro p hp
    simp [Exclude] at hp
    tauto
  rw [hfirst]
  simp only [true_and, KeyUnion.members, Bool.false_eq_true, if_false, List.append_nil,
    List.mem_map, Bool.and_eq_true, conforms_object_obj, conformsProps_iff]
  constructor
  · rintro ⟨K, ⟨k, hk, rfl⟩, h1, h2⟩
    have hreq : ∃ s, fs.lookup k = some (.str s) := by
      rw [← acceptsProp_required_string]
      apply h1
      simp only [RequiredProps, List.mem_map, List.mem_filter]
      exact ⟨(k, false, .string), ⟨(mem_linkProps _ _).2 ⟨k, hk, rfl⟩, by simp⟩, rfl⟩
    refine ⟨⟨k, hk, hreq⟩, ?_⟩
    intro k' hk'
    by_cases hkK : k' = k
    · subst hkK
      exact Or.inr (Or.inr hreq)
    · rw [← acceptsProp_optional_string]
      apply h2
      simp only [PartialProps, Exclude, List.mem_map, List.mem_filter]
      refine ⟨(k', false, .string), ⟨(mem_linkProps _ _).2 ⟨k', hk', rfl⟩, ?_⟩, rfl⟩
      simp
      exact ⟨by simpa using hk', hkK⟩
  · rintro ⟨⟨k, hk, hreq⟩, hopt⟩
    refine ⟨_, ⟨k, hk, rfl⟩, ?_, ?_⟩
    · intro p hp
      simp only [RequiredProps, List.mem_map, List.mem_filter] at hp
      obtain ⟨q, ⟨hq, hqK⟩, rfl⟩ := hp
      obtain ⟨k', hk', rfl⟩ := (mem_linkProps _ _).1 hq
      have : k' = k := by simpa using hqK
      subst this
      exact (acceptsProp_required_string fs k').2 hreq
    · intro p hp
      simp only [PartialProps, List.mem_map, List.mem_filter] at hp
      obtain ⟨q, ⟨hq, -⟩, rfl⟩ := hp
      obtain ⟨k', hk', rfl⟩ := (mem_linkProps _ _).1 hq
      exact (acceptsProp_optional_string fs k').2 (hopt k' hk')

theorem requireAtLeastOne_string_eq :
    RequireAtLeastOne (linkShape stringKeys) (keyof (linkShape stringKeys)) =
      .inter (.object [])
        (.union
          (.inter (.inter (.object []) (.index false .string))
            (.inter (.object []) (.index true (.union .string .undefined))))
          (.inter (.inter (.object []) (.index true .string))
            (.inter (.object []) (.index false (.union .string .undefined))))) := by
  rfl

theorem requireAtLeastOne_string_of_strings (fs : Fields)
    (h : ∀ kv ∈ fs, ∃ s, kv.2 = .str s) :
    conforms (RequireAtLeastOne (linkShape stringKeys) (keyof (linkShape stringKeys)))
      (.obj fs) = true := by
  have hall : ∀ kv ∈ fs, conforms .string kv.2 = true := by
    intro kv hkv
    obtain ⟨s, hs⟩ := h kv hkv
    rw [hs]
    rfl
  rw [requireAtLeastOne_string_eq]
  simp only [conforms, ownProps, conformsProps, Bool.and_eq_true, Bool.or_eq_true,
    List.all_eq_true, true_and]
  refine Or.inl ⟨fun kv hkv => Or.inr (hall kv hkv), fun kv hkv => Or.inr (Or.inl (hall kv hkv))⟩

theorem conforms_string_or_undefined (x : JsVal)
    (h : conforms .string x = true ∨ conforms .undefined x = true) :
    (∃ s, x = .str s) ∨ x = .undefined := by
  cases x <;> simp [conforms] at h ⊢

theorem requireAtLeastOne_string_only (fs : Fields)
    (h : conforms (RequireAtLeastOne (linkShape stringKeys) (keyof (linkShape stringKeys)))
      (.obj fs) = true) :
    ∀ kv ∈ fs, (∃ s, kv.2 = .str s) ∨ kv.2 = .undefined := by
  rw [requireAtLeastOne_string_eq] at h
  simp only [conforms, ownProps, conformsProps, Bool.and_eq_true, Bool.or_eq_true,
    List.all_eq_true, true_and] at h
  intro kv hkv
  rcases h with ⟨h1, -⟩ | ⟨-, h2⟩
  · rcases h1 kv hkv with hf | hs
    · simp at hf
    · exact conforms_string_or_undefined _ (Or.inl hs)
  · rcases h2 kv hkv with hf | hs
    · simp at hf
    · exact conforms_string_or_undefined _ hs

open SchemaArguments

theorem conforms_oneOf (formats : List String) (v : JsVal) :
    conforms (oneOf formats) v = match v with
      | .str s => formats.contains s
      | _ => false := by
  rw [oneOf, conforms_unionAll]
  induction formats with
  | nil => cases v <;> simp
  | cons f formats ih =>
    cases v <;> simp [conforms] at ih ⊢
    rename_i s
    rw [ih]
    by_cases h : s = f
    · simp [h]
    · have h' : ¬ f = s := fun e => h e.symm
      simp [h, h']

theorem attributes_accept_iff (formats : List String) (attrs : List (String × Ty)) (fs : Fields) :
    conforms (.object (("format", false, oneOf formats) :: attrs.map fun a => (a.1, true, a.2)))
        (.obj fs) = true ↔ formatIn formats fs = true ∧ optionalOk attrs fs = true := by
  rw [conforms_object_obj, conformsProps_iff]
  simp only [List.mem_cons, forall_eq_or_imp, List.mem_map, forall_exists_index, and_imp,
    optionalOk, List.all_eq_true]
  constructor
  · rintro ⟨h1, h2⟩
    refine ⟨?_, fun a ha => h2 _ a ha rfl⟩
    unfold acceptsProp at h1
    unfold formatIn
    cases hl : fs.lookup "format" with
    | none => simp [hl] at h1
    | some x =>
      cases x <;> simp [hl, conforms_oneOf] at h1 ⊢
      exact h1
  · rintro ⟨h1, h2⟩
    refine ⟨?_, ?_⟩
    · unfold acceptsProp
      unfold formatIn at h1
      cases hl : fs.lookup "format" with
      | none => simp [hl] at h1
      | some x =>
        cases x <;> simp [hl, conforms_oneOf] at h1 ⊢
        exact h1
    · rintro p a ha rfl
      exact h2 a ha


theorem conforms_extend (base : Ty) (own : Props) (fs : Fields) :
    conforms (extend base own) (.obj fs) = true ↔
      (∀ p ∈ base.props, acceptsProp fs p = true) ∧ ∀ p ∈ own, acceptsProp fs p = true := by
  rw [extend, conforms_object_obj, conformsProps_iff]
  simp only [List.mem_append]
  constructor
  · intro h
    exact ⟨fun p hp => h p (Or.inl hp), fun p hp => h p (Or.inr hp)⟩
  · rintro ⟨h1, h2⟩ p (hp | hp)
    · exact h1 p hp
    · exact h2 p hp

theorem extend_rejects (base : Ty) (own : Props) (fs : Fields) (p : String × Bool × Ty)
    (hp : p ∈ own) (h : acceptsProp fs p = false) : conforms (extend base own) (.obj fs) = false := by
  cases hc : conforms (extend base own) (.obj fs) with
  | false => rfl
  | true =>
    have := ((conforms_extend base own fs).1 hc).2 p hp
    rw [h] at this
    cases this

theorem acceptsProp_lit_ne (fs : Fields) (tag t : String) (hne : tag ≠ t)
    (hft : fs.lookup "fieldType" = some (.str t)) :
    acceptsProp fs ("fieldType", false, .lit tag) = false := by
  simp [acceptsProp, hft, conforms, hne]

theorem acceptsProp_lit_eq (fs : Fields) (t : String)
    (hft : fs.lookup "fieldType" = some (.str t)) :
    acceptsProp fs ("fieldType", false, .lit t) = true := by
  simp [acceptsProp, hft, conforms]

theorem acceptsProp_required_missing (fs : Fields) (k : String) (t : Ty)
    (h : carries k (.obj fs) = false) : acceptsProp fs (k, false, t) = false := by
  simp only [carries, ownProps] at h
  unfold acceptsProp
  cases hl : fs.lookup k with
  | none => rfl
  | some x => cases x <;> simp_all

theorem acceptsProp_optional_missing (fs : Fields) (k : String) (t : Ty)
    (h : carries k (.obj fs) = false) : acceptsProp fs (k, true, t) = true := by
  simp only [carries, ownProps] at h
  unfold acceptsProp
  cases hl : fs.lookup k with
  | none => rfl
  | some x => cases x <;> simp_all

theorem fieldData_rejects_missing_attributes (fs : Fields) (t : String)
    (ht : t ∈ ["SWITCH", "TEXT", "DATE", "FILE"])
    (hft : fs.lookup "fieldType" = some (.str t))
    (hattr : carries "fieldTypeAttributes" (.obj fs) = false) :
    conforms FieldData (.obj fs) = false := by
  have hmiss := fun ty => acceptsProp_required_missing fs "fieldTypeAttributes" ty hattr
  rw [FieldData, conforms_unionAll]
  simp only [List.mem_cons, List.mem_singleton, List.not_mem_nil, or_false] at ht
  simp only [List.any_cons, List.any_nil, Bool.or_false, Bool.or_eq_false_iff]
  rcases ht with rfl | rfl | rfl | rfl <;>
    refine ⟨?_, ?_, ?_, ?_, ?_, ?_, ?_, ?_⟩ <;>
    first
      | exact extend_rejects _ _ fs ("fieldTypeAttributes", false, _)
          (List.mem_cons_of_mem _ (List.mem_cons_self _ _)) (hmiss _)
      | exact extend_rejects _ _ fs ("fieldType", false, .lit _) (List.mem_cons_self _ _)
          (acceptsProp_lit_ne fs _ _ (by decide) hft)

theorem fieldData_accepts_number_without_attributes (fs : Fields)
    (hbase : conforms FieldDataBase (.obj fs) = true)
    (hft : fs.lookup "fieldType" = some (.str "NUMBER"))
    (hattr : carries "fieldTypeAttributes" (.obj fs) = false) :
    conforms FieldData (.obj fs) = true := by
  have hnum : conforms NumberFieldData (.obj fs) = true := by
    rw [NumberFieldData, conforms_extend]
    refine ⟨fun p hp => ?_, fun p hp => ?_⟩
    · obtain ⟨fs', hfs, hall⟩ := conforms_object _ _ hbase
      cases hfs
      exact hall p hp
    · simp only [List.mem_cons, List.mem_singleton, List.not_mem_nil, or_false] at hp
      rcases hp with rfl | rfl
      · exact acceptsProp_lit_eq fs _ hft
      · exact acceptsProp_optional_missing fs _ _ hattr
  rw [FieldData, conforms_unionAll]
  simp [hnum]

/-- C4 (counterexample): the attribute object `{ format: "NUMBER", precision: "2" }`
has its format in the enumerated set of NUMBER and lacks no mandatory
attribute, yet it is not accepted for NUMBER. -/
theorem number_attributes_text_precision_rejected :
    formatIn ["NUMBER"] numberAttributesWithTextPrecision = true ∧
      conforms NumberFieldTypeAttributes (.obj numberAttributesWithTextPrecision) = false := by
  decide

/-- C4 (amended): for each variant that carries `fieldTypeAttributes`, an
attribute object is accepted exactly when its `format` is in the enumerated set
of the variant and every optional attribute it sets has the declared type; a
field-create payload without `fieldTypeAttributes` is accepted for NUMBER when
the rest of it is well-typed, and rejected for SWITCH, TEXT, DATE and FILE. -/
theorem field_attributes_accepted (fs : Fields) :
    (conforms NumberFieldTypeAttributes (.obj fs) = true ↔
        formatIn ["NUMBER"] fs = true ∧
        optionalOk [("precision", .number), ("currency", .string), ("minValue", .number),
          ("maxValue", .number), ("isBigInt", .boolean), ("autoIncrement", .boolean)] fs = true) ∧
      (conforms TextFieldTypeAttributes (.obj fs) = true ↔
        formatIn ["UNFORMATTED", "NAME", "EMAIL", "EIN"] fs = true ∧
        optionalOk [("fieldSize", .number), ("regex", .string)] fs = true) ∧
      (conforms DateFieldTypeAttributes (.obj fs) = true ↔
        formatIn ["DATE", "DATETIME"] fs = true) ∧
      (conforms SwitchFieldTypeAttributes (.obj fs) = true ↔
        formatIn ["ON_OFF", "YES_NO", "TRUE_FALSE", "ACTIVE_INACTIVE", "HIGH_LOW", "CUSTOM"] fs
          = true ∧
        optionalOk [("listOptions", .array .string)] fs = true) ∧
      (conforms SmartFieldTypeAttributes (.obj fs) = true ↔
        formatIn ["ADDRESS", "PHONE"] fs = true ∧
        optionalOk [("innerFields",
          unionAll [NumberFieldData, SwitchFieldData, TextFieldData, .array DateFieldData])] fs
          = true) ∧
      (conforms FileFieldTypeAttributes (.obj fs) = true ↔
        formatIn ["FILE", "IMAGE"] fs = true ∧
        optionalOk [("showTitle", .boolean), ("showUrl", .boolean), ("maxSize", .number),
          ("typeRestrictions", .array .string), ("expiration", .number)] fs = true) ∧
      (conforms FieldDataBase (.obj fs) = true →
        conforms (.object [("id", false, .string), ("table", false, TableKey)]) (.obj fs) = true →
        fs.lookup "fieldType" = some (.str "NUMBER") →
        carries "fieldTypeAttributes" (.obj fs) = false →
        conforms SchemaFieldApi.create (.obj fs) = true) ∧
      (∀ t ∈ ["SWITCH", "TEXT", "DATE", "FILE"],
        fs.lookup "fieldType" = some (.str t) →
        carries "fieldTypeAttributes" (.obj fs) = false →
        conforms SchemaFieldApi.create (.obj fs) = false) := by
  refine ⟨?_, ?_, ?_, ?_, ?_, ?_, ?_, ?_⟩
  · exact attributes_accept_iff ["NUMBER"]
      [("precision", .number), ("currency", .string), ("minValue", .number),
        ("maxValue", .number), ("isBigInt", .boolean), ("autoIncrement", .boolean)] fs
  · exact attributes_accept_iff ["UNFORMATTED", "NAME", "EMAIL", "EIN"]
      [("fieldSize", .number), ("regex", .string)] fs
  · have h := attributes_accept_iff ["DATE", "DATETIME"] [] fs
    simpa [optionalOk] using h
  · exact attributes_accept_iff
      ["ON_OFF", "YES_NO", "TRUE_FALSE", "ACTIVE_INACTIVE", "HIGH_LOW", "CUSTOM"]
      [("listOptions", .array .string)] fs
  · exact attributes_accept_iff ["ADDRESS", "PHONE"]
      [("innerFields",
        unionAll [NumberFieldData, SwitchFieldData, TextFieldData, .array DateFieldData])] fs
  · exact attributes_accept_iff ["FILE", "IMAGE"]
      [("showTitle", .boolean), ("showUrl", .boolean), ("maxSize", .number),
        ("typeRestrictions", .array .string), ("expiration", .number)] fs
  · intro hbase hkeys hft hattr
    have hdata := fieldData_accepts_number_without_attributes fs hbase hft hattr
    rw [SchemaFieldApi.create, conforms_union, FieldCreate, conforms_inter, hdata, hkeys]
    rfl
  · intro t ht hft hattr
    have hdata := fieldData_rejects_missing_attributes fs t ht hft hattr
    rw [SchemaFieldApi.create, conforms_union, FieldCreate, FieldCreateById, conforms_inter,
      conforms_inter, hdata]
    rfl

/-- Witness of `field_attributes_accepted`: a number field without
`fieldTypeAttributes` is accepted by `schema.field.create`. -/
theorem field_attributes_accepted_witness :
    conforms SchemaFieldApi.create (.obj numberFieldWithoutAttributes) = true :=
  (field_attributes_accepted numberFieldWithoutAttributes).2.2.2.2.2.2.1
    (by decide) (by decide) rfl (by decide)

/-- C6 (counterexample): a link that sets `id` together with the alternate key
`email` is an accepted `RelationLink<"email">` and an accepted `Filter<"email">`;
with the default key set `string` the link that sets no addressing field is an
accepted `RelationLink` and `Filter`, and `data.delete` accepts an argument with
the empty filter. -/
theorem link_with_id_and_key_accepted :
    conforms (RelationLink (literalKeys ["email"])) linkWithIdAndEmail = true ∧
      conforms (Filter (literalKeys ["email"])) linkWithIdAndEmail = true ∧
      carries "id" linkWithIdAndEmail = true ∧
      carries "email" linkWithIdAndEmail = true ∧
      conforms (RelationLink stringKeys) (.obj []) = true ∧
      conforms (Filter stringKeys) (.obj []) = true ∧
      conforms DataApi.delete deleteWithEmptyFilter = true := by
  decide

/-- C6 (amended): for every key set `Keys` that is a union of string literals,
an object is an accepted `RelationLink<Keys>` (and likewise an accepted
`Filter<Keys>`) exactly when at least one of `id` and the keys of `Keys` is set
to a string and each of them is unset or a string; there the link with no
addressing field is rejected.  With the default key set `string` no addressing
field is required: every object whose properties are all strings is accepted,
the empty link included, and every property of an accepted object is a string
or `undefined`. -/
theorem relationLink_accepted_iff (ks : List String) (fs : Fields) :
    (conforms (RelationLink (literalKeys ks)) (.obj fs) = true ↔
        (∃ k ∈ "id" :: ks, ∃ s, fs.lookup k = some (.str s)) ∧
        (∀ k ∈ "id" :: ks, fs.lookup k = none ∨ fs.lookup k = some .undefined ∨
          ∃ s, fs.lookup k = some (.str s))) ∧
      (conforms (Filter (literalKeys ks)) (.obj fs) = true ↔
        (∃ k ∈ "id" :: ks, ∃ s, fs.lookup k = some (.str s)) ∧
        (∀ k ∈ "id" :: ks, fs.lookup k = none ∨ fs.lookup k = some .undefined ∨
          ∃ s, fs.lookup k = some (.str s))) ∧
      conforms (RelationLink (literalKeys ks)) (.obj []) = false ∧
      conforms (Filter (literalKeys ks)) (.obj []) = false ∧
      ((∀ kv ∈ fs, ∃ s, kv.2 = .str s) →
        conforms (RelationLink stringKeys) (.obj fs) = true ∧
        conforms (Filter stringKeys) (.obj fs) = true) ∧
      (conforms (RelationLink stringKeys) (.obj fs) = true →
        ∀ kv ∈ fs, (∃ s, kv.2 = .str s) ∨ kv.2 = .undefined) ∧
      (conforms (Filter stringKeys) (.obj fs) = true →
        ∀ kv ∈ fs, (∃ s, kv.2 = .str s) ∨ kv.2 = .undefined) ∧
      conforms (RelationLink stringKeys) (.obj []) = true ∧
      conforms (Filter stringKeys) (.obj []) = true := by
  have hempty : conforms (RelationLink (literalKeys ks)) (.obj []) = false := by
    cases h : conforms (RelationLink (literalKeys ks)) (.obj []) with
    | false => rfl
    | true =>
      obtain ⟨⟨k, -, s, hs⟩, -⟩ := (requireAtLeastOne_literal_iff ks []).1 h
      simp at hs
  exact ⟨requireAtLeastOne_literal_iff ks fs, requireAtLeastOne_literal_iff ks fs, hempty, hempty,
    fun h => ⟨requireAtLeastOne_string_of_strings fs h, requireAtLeastOne_string_of_strings fs h⟩,
    requireAtLeastOne_string_only fs, requireAtLeastOne_string_only fs,
    requireAtLeastOne_string_of_strings [] (by simp),
    requireAtLeastOne_string_of_strings [] (by simp)⟩

/-- Witness of `relationLink_accepted_iff`: with the default key set `string`
a link that sets `id` and `email` is accepted. -/
theorem relationLink_accepted_iff_witness :
    conforms (RelationLink stringKeys) linkWithIdAndEmail = true ∧
      conforms (Filter stringKeys) linkWithIdAndEmail = true :=
  (relationLink_accepted_iff [] [("id", .str "u1"), ("email", .str "a@b.c")]).2.2.2.2.1
    (by simp)

end Webhooks
